import Mathlib

set_option maxRecDepth 16384

/-!
Shallow embedding of the ssd1306 driver core (properties.rs, mode/graphics.rs).

Machine integers are modelled as `Nat`.  Where the source performs `u8`
arithmetic whose wrap-around is reachable, the wrap is written explicitly as
`% 256` (release-build semantics; debug builds would abort on overflow, which
only strengthens the refutations below).  Rust panics are modelled by the
`Res.panicked` outcome; fallible bus operations return `Res`.

The bus (the `WriteOnlyDataCommand` / `DisplayInterface` collaborator) is
modelled at command granularity: the missing `command.rs` serialisation is
abstracted into the `Cmd` inductive, and an `Iface` records the list of
transmitted commands together with a fault plan deciding whether each
successive transmission succeeds (an empty plan means every send succeeds).
-/

/-- Addressing mode of the controller (command.rs `AddrMode`, missing from the
sources; the three states are fixed by the spec). -/
inductive AddrMode where
  | Page
  | Horizontal
  | Vertical
deriving DecidableEq

/-- Display rotation (displayrotation.rs, missing from the sources; the four
values are fixed by the spec). -/
inductive DisplayRotation where
  | Rotate0
  | Rotate90
  | Rotate180
  | Rotate270
deriving DecidableEq

/-- Display size variants handled by `GraphicsMode::flush` in
mode/graphics.rs.  (properties.rs additionally lists 72x40 and 64x48 panels in
its constructor, but the graphics-mode code under verification matches on
exactly these three.) -/
inductive DisplaySize where
  | Display128x64
  | Display128x32
  | Display96x16
deriving DecidableEq

/-- Dimensions `(width, height)` in pixels (displaysize.rs `dimensions`). -/
def DisplaySize.dims : DisplaySize → Nat × Nat
  | .Display128x64 => (128, 64)
  | .Display128x32 => (128, 32)
  | .Display96x16 => (96, 16)

/-- Commands sent over the bus.  Modelled from the spec: command.rs is not in
the sources, so commands are kept symbolic instead of being serialised to
bytes; `PageAddress` stores page numbers after the u8-to-Page conversion
(pixel row divided by 8, spec section 4.5 step 1); `Data` is a `send_data`
payload.  Only the constructors reached by the verified operations appear. -/
inductive Cmd where
  | DisplayOn (o : Bool)
  | ColumnAddress (start finish : Nat)
  | PageAddress (start finish : Nat)
  | ColStart (column : Nat)
  | PageStart (page : Nat)
  | SegmentRemap (remap : Bool)
  | ReverseComDir (dir : Bool)
  | AddressMode (mode : AddrMode)
  | PreChargePeriod (phase1 phase2 : Nat)
  | Contrast (value : Nat)
  | Data (payload : List Nat)
deriving DecidableEq

/-- Transport error.  Modelled from the spec: the display-interface error type
is opaque to the core; a single bus-write failure constructor suffices. -/
inductive DisplayError where
  | BusWriteError
deriving DecidableEq

/-- Outcome of an operation: normal result, recoverable error, or Rust
panic. -/
inductive Res (α : Type) where
  | ok (a : α)
  | err (e : DisplayError)
  | panicked
deriving DecidableEq

/-- The bus collaborator: the commands transmitted so far, plus a fault plan
giving the outcome of each successive transmission (empty plan: success). -/
structure Iface where
  sent : List Cmd
  plan : List Bool
deriving DecidableEq

/-- Transmit one command: on success it is appended to `sent`; on failure
nothing is recorded as transmitted. -/
def Iface.send (i : Iface) (c : Cmd) : Iface × Bool :=
  match i.plan with
  | [] => ({ i with sent := i.sent ++ [c] }, true)
  | b :: rest =>
      if b then ({ sent := i.sent ++ [c], plan := rest }, true)
      else ({ i with plan := rest }, false)

/-- Transmit a list of data payloads, stopping at the first failure
(the `try_for_each` in `bounded_draw` / `flush_buffer_chunks`). -/
def Iface.sendAll (i : Iface) (chunks : List (List Nat)) : Res Unit × Iface :=
  match chunks with
  | [] => (.ok (), i)
  | c :: rest =>
      match i.send (.Data c) with
      | (i', true) => i'.sendAll rest
      | (i', false) => (.err .BusWriteError, i')

/-- Wrapping u8 subtraction (release semantics of `a - b` on `u8`). -/
def u8sub (a b : Nat) : Nat := (a + 256 - b % 256) % 256

/-- Wrapping u8 addition (release semantics of `a + b` on `u8`). -/
def u8add (a b : Nat) : Nat := (a + b) % 256

/-- Brightness settings (brightness.rs, missing from the sources).  Modelled
from the spec: a precharge period and a contrast value. -/
structure Brightness where
  precharge : Nat
  contrast : Nat
deriving DecidableEq

/-- properties.rs `DisplayProperties`: display geometry and rotation, the
panel memory offset, the mirrored addressing-mode state and the bus. -/
structure DisplayProperties where
  iface : Iface
  display_size : DisplaySize
  display_rotation : DisplayRotation
  display_offset : Nat × Nat
  addr_mode : AddrMode
deriving DecidableEq

/-- properties.rs `get_dimensions`: rotated dimensions. -/
def DisplayProperties.get_dimensions (p : DisplayProperties) : Nat × Nat :=
  let (w, h) := p.display_size.dims
  match p.display_rotation with
  | .Rotate0 | .Rotate180 => (w, h)
  | .Rotate90 | .Rotate270 => (h, w)

/-- properties.rs `change_mode`: send the addressing-mode command, then (only
on success, because of the early return of `?`) update the local state. -/
def DisplayProperties.change_mode (p : DisplayProperties) (mode : AddrMode) :
    Res Unit × DisplayProperties :=
  match p.iface.send (.AddressMode mode) with
  | (i', true) => (.ok (), { p with iface := i', addr_mode := mode })
  | (i', false) => (.err .BusWriteError, { p with iface := i' })

/-- properties.rs `set_draw_area`: panics when the device is in Page mode;
otherwise sends the column-address and page-address commands.  The source
computes `end - 1` in `u8` and converts rows to pages with `.into()`
(division by 8, see `Cmd`). -/
def DisplayProperties.set_draw_area (p : DisplayProperties)
    (start finish : Nat × Nat) : Res Unit × DisplayProperties :=
  match p.addr_mode with
  | .Page => (.panicked, p)
  | _ =>
      match p.iface.send (.ColumnAddress start.1 (u8sub finish.1 1)) with
      | (i1, true) =>
          match i1.send (.PageAddress (start.2 / 8) (u8sub finish.2 1 / 8)) with
          | (i2, true) => (.ok (), { p with iface := i2 })
          | (i2, false) => (.err .BusWriteError, { p with iface := i2 })
      | (i1, false) => (.err .BusWriteError, { p with iface := i1 })

/-- properties.rs `set_column`: only legal in Page mode, panics otherwise. -/
def DisplayProperties.set_column (p : DisplayProperties) (column : Nat) :
    Res Unit × DisplayProperties :=
  match p.addr_mode with
  | .Page =>
      match p.iface.send (.ColStart column) with
      | (i', true) => (.ok (), { p with iface := i' })
      | (i', false) => (.err .BusWriteError, { p with iface := i' })
  | _ => (.panicked, p)

/-- properties.rs `set_row`: only legal in Page mode, panics otherwise
(the row is converted to a page start). -/
def DisplayProperties.set_row (p : DisplayProperties) (row : Nat) :
    Res Unit × DisplayProperties :=
  match p.addr_mode with
  | .Page =>
      match p.iface.send (.PageStart (row / 8)) with
      | (i', true) => (.ok (), { p with iface := i' })
      | (i', false) => (.err .BusWriteError, { p with iface := i' })
  | _ => (.panicked, p)

/-- properties.rs `set_rotation`: records the rotation, then sends the
segment-remap and COM-direction bit pair for it. -/
def DisplayProperties.set_rotation (p : DisplayProperties)
    (rot : DisplayRotation) : Res Unit × DisplayProperties :=
  let p1 := { p with display_rotation := rot }
  let bits : Bool × Bool :=
    match rot with
    | .Rotate0 => (true, true)
    | .Rotate90 => (false, true)
    | .Rotate180 => (false, false)
    | .Rotate270 => (true, false)
  match p1.iface.send (.SegmentRemap bits.1) with
  | (i1, true) =>
      match i1.send (.ReverseComDir bits.2) with
      | (i2, true) => (.ok (), { p1 with iface := i2 })
      | (i2, false) => (.err .BusWriteError, { p1 with iface := i2 })
  | (i1, false) => (.err .BusWriteError, { p1 with iface := i1 })

/-- properties.rs `change_brightness`: a `debug_assert!` guards the precharge
range, so the check only exists when the build enables debug assertions
(`debugAssertions`); it panics before anything is transmitted.  Otherwise the
precharge-period and contrast commands are sent. -/
def DisplayProperties.change_brightness (p : DisplayProperties)
    (b : Brightness) (debugAssertions : Bool) : Res Unit × DisplayProperties :=
  if debugAssertions ∧ ¬(0 < b.precharge ∧ b.precharge ≤ 15) then
    (.panicked, p)
  else
    match p.iface.send (.PreChargePeriod 1 b.precharge) with
    | (i1, true) =>
        match i1.send (.Contrast b.contrast) with
        | (i2, true) => (.ok (), { p with iface := i2 })
        | (i2, false) => (.err .BusWriteError, { p with iface := i2 })
    | (i1, false) => (.err .BusWriteError, { p with iface := i1 })

/-- properties.rs `draw`: one `send_data` of the whole payload. -/
def DisplayProperties.draw (p : DisplayProperties) (buffer : List Nat) :
    Res Unit × DisplayProperties :=
  match p.iface.send (.Data buffer) with
  | (i', true) => (.ok (), { p with iface := i' })
  | (i', false) => (.err .BusWriteError, { p with iface := i' })

/-- Fuel-driven model of slice `chunks`: splits a list into consecutive
pieces of `w` elements, the last piece possibly shorter. -/
def chunksGo (w : Nat) : Nat → List Nat → List (List Nat)
  | _, [] => []
  | 0, _ :: _ => []
  | fuel + 1, x :: xs => (x :: xs).take w :: chunksGo w fuel ((x :: xs).drop w)

/-- Slice `chunks(w)` over a list (`buffer.chunks(disp_width)`). -/
def chunksExact (w : Nat) (l : List Nat) : List (List Nat) :=
  chunksGo w l.length l

/-- properties.rs `bounded_draw` (identical to lib.rs
`flush_buffer_chunks`): page-band slices of the framebuffer are sent one
`send_data` each.  The page count is computed by `u8` subtraction (wrapping;
a debug build would abort on the reachable underflow refuted below), and the
Rust slice `&s[lower..upper]` is written `(s.drop lower).take (upper - lower)`
(in range at every reachable call site). -/
def DisplayProperties.bounded_draw (p : DisplayProperties) (buffer : List Nat)
    (dispWidth : Nat) (upperLeft lowerRight : Nat × Nat) :
    Res Unit × DisplayProperties :=
  let numPages := u8sub lowerRight.2 upperLeft.2 / 8 + 1
  let startingPage := upperLeft.2 / 8
  let pageLower := upperLeft.1
  let pageUpper := lowerRight.1
  let pieces :=
    (((chunksExact dispWidth buffer).drop startingPage).take numPages).map
      (fun s => (s.drop pageLower).take (pageUpper - pageLower))
  let (r, i') := p.iface.sendAll pieces
  (r, { p with iface := i' })

/-- mode/graphics.rs `GraphicsMode`: the shared properties, the 1024-byte
framebuffer and the four dirty-region bounds. -/
structure GraphicsMode where
  properties : DisplayProperties
  buffer : List Nat
  min_x : Nat
  max_x : Nat
  min_y : Nat
  max_y : Nat
deriving DecidableEq

/-- mode/graphics.rs `GraphicsMode::new`: zeroed buffer, sentinel bounds. -/
def GraphicsMode.new (properties : DisplayProperties) : GraphicsMode :=
  { properties
    buffer := List.replicate 1024 0
    min_x := 255
    max_x := 0
    min_y := 255
    max_y := 0 }

/-- mode/graphics.rs `clear`: zero the whole buffer and set the bounds to the
full rotated frame. -/
def GraphicsMode.clear (g : GraphicsMode) : GraphicsMode :=
  let (width, height) := g.properties.get_dimensions
  { g with
    buffer := List.replicate 1024 0
    min_x := 0
    max_x := width - 1
    min_y := 0
    max_y := height - 1 }

/-- mode/graphics.rs `get_dimensions`. -/
def GraphicsMode.get_dimensions (g : GraphicsMode) : Nat × Nat :=
  g.properties.get_dimensions

/-- mode/graphics.rs `set_pixel`: out-of-range guards are only the
`x >= display_width` (or `y >= display_width` after a quarter turn) check and
the `idx >= buffer.len()` check; then the bounds are widened with the `u8`
truncations of the coordinates and the single bit is set or cleared.  The
`u8` complement `!bit` is written `255 ^^^ bit`. -/
def GraphicsMode.set_pixel (g : GraphicsMode) (x y value : Nat) :
    GraphicsMode :=
  let displayWidth := g.properties.display_size.dims.1
  match g.properties.display_rotation with
  | .Rotate0 | .Rotate180 =>
      if x ≥ displayWidth then g
      else
        let idx := y / 8 * displayWidth + x
        if idx ≥ g.buffer.length then g
        else
          let bit := 2 ^ (y % 8)
          let byte := g.buffer.getD idx 0
          let newByte := if value = 0 then byte &&& (255 ^^^ bit)
                         else byte ||| bit
          { g with
            buffer := g.buffer.set idx newByte
            min_x := if x % 256 < g.min_x then x % 256 else g.min_x
            max_x := if x % 256 > g.max_x then x % 256 else g.max_x
            min_y := if y % 256 < g.min_y then y % 256 else g.min_y
            max_y := if y % 256 > g.max_y then y % 256 else g.max_y }
  | .Rotate90 | .Rotate270 =>
      if y ≥ displayWidth then g
      else
        let idx := x / 8 * displayWidth + y
        if idx ≥ g.buffer.length then g
        else
          let bit := 2 ^ (x % 8)
          let byte := g.buffer.getD idx 0
          let newByte := if value = 0 then byte &&& (255 ^^^ bit)
                         else byte ||| bit
          { g with
            buffer := g.buffer.set idx newByte
            min_x := if x % 256 < g.min_x then x % 256 else g.min_x
            max_x := if x % 256 > g.max_x then x % 256 else g.max_x
            min_y := if y % 256 < g.min_y then y % 256 else g.min_y
            max_y := if y % 256 > g.max_y then y % 256 else g.max_y }

/-- mode/graphics.rs `flush`: program the draw area to the whole display
(propagating its failure, which leaves the bounds untouched), then reset the
bounds to the sentinel and send the active buffer slice. -/
def GraphicsMode.flush (g : GraphicsMode) : Res Unit × GraphicsMode :=
  let displaySize := g.properties.display_size
  let (displayWidth, displayHeight) := displaySize.dims
  match g.properties.set_draw_area (0, 0) (displayWidth, displayHeight) with
  | (.ok _, p') =>
      let g1 := { g with
        properties := p'
        min_x := 255
        max_x := 0
        min_y := 255
        max_y := 0 }
      let payload :=
        match displaySize with
        | .Display128x64 => g.buffer
        | .Display128x32 => g.buffer.take 512
        | .Display96x16 => g.buffer.take 192
      let (r, p'') := g1.properties.draw payload
      (r, { g1 with properties := p'' })
  | (.err e, p') => (.err e, { g with properties := p' })
  | (.panicked, p') => (.panicked, { g with properties := p' })

/-- mode/graphics.rs `fast_flush`: full flush on an empty dirty region;
otherwise clamp the bounds (u8 arithmetic), program the draw area to them,
reset the bounds and send the covered page bands. -/
def GraphicsMode.fast_flush (g : GraphicsMode) : Res Unit × GraphicsMode :=
  if g.max_x < g.min_x ∨ g.max_y < g.min_y then g.flush
  else
    let (width, height) := g.properties.display_size.dims
    let dispMinX := g.min_x
    let dispMinY := g.min_y
    let dispMaxX := if u8add g.max_x 1 > width then width else u8add g.max_x 1
    let dispMaxY := if (g.max_y ||| 7) > height then height else g.max_y ||| 7
    match g.properties.set_draw_area (dispMinX, dispMinY)
        (dispMaxX, dispMaxY) with
    | (.ok _, p') =>
        let g1 := { g with
          properties := p'
          min_x := 255
          max_x := 0
          min_y := 255
          max_y := 0 }
        let (r, p'') := g1.properties.bounded_draw g.buffer width
          (dispMinX, dispMinY) (dispMaxX, dispMaxY)
        (r, { g1 with properties := p'' })
    | (.err e, p') => (.err e, { g with properties := p' })
    | (.panicked, p') => (.panicked, { g with properties := p' })

/-- Modelled from the spec: the byte/bit decode of section 4.1, reading the
framebuffer bit that `set_pixel` addresses for a logical coordinate. -/
def GraphicsMode.readPixel (g : GraphicsMode) (x y : Nat) : Bool :=
  let displayWidth := g.properties.display_size.dims.1
  match g.properties.display_rotation with
  | .Rotate0 | .Rotate180 =>
      (g.buffer.getD (y / 8 * displayWidth + x) 0).testBit (y % 8)
  | .Rotate90 | .Rotate270 =>
      (g.buffer.getD (x / 8 * displayWidth + y) 0).testBit (x % 8)

/-- The framebuffer byte index that `set_pixel` addresses for a logical
coordinate (rotation dependent). -/
def pixIdx (g : GraphicsMode) (x y : Nat) : Nat :=
  let w := g.properties.display_size.dims.1
  match g.properties.display_rotation with
  | .Rotate0 | .Rotate180 => y / 8 * w + x
  | .Rotate90 | .Rotate270 => x / 8 * w + y

/-- The bit position that `set_pixel` addresses within that byte. -/
def pixBit (g : GraphicsMode) (x y : Nat) : Nat :=
  match g.properties.display_rotation with
  | .Rotate0 | .Rotate180 => y % 8
  | .Rotate90 | .Rotate270 => x % 8

/-- The byte value `set_pixel` stores: bit `k` cleared when the pixel value
is 0, set otherwise. -/
def updatedByte (b k v : Nat) : Nat :=
  if v = 0 then b &&& (255 ^^^ 2 ^ k) else b ||| 2 ^ k

/-- The clamped lower-right corner `fast_flush` programs: exactly the
`disp_max_x` / `disp_max_y` computation of the source. -/
def fastWindow (g : GraphicsMode) : Nat × Nat :=
  let (width, height) := g.properties.display_size.dims
  (if u8add g.max_x 1 > width then width else u8add g.max_x 1,
   if (g.max_y ||| 7) > height then height else g.max_y ||| 7)

/-- One transmitted page band of `bounded_draw`: page `p` of a `w`-wide
buffer, columns `lo` to `lo + n`. -/
def bandSlice (buffer : List Nat) (w p lo n : Nat) : List Nat :=
  (((buffer.drop (p * w)).take w).drop lo).take n

/-- The data payload transmitted by `flush` (the active buffer slice). -/
def flushPayload (g : GraphicsMode) : List Nat :=
  match g.properties.display_size with
  | .Display128x64 => g.buffer
  | .Display128x32 => g.buffer.take 512
  | .Display96x16 => g.buffer.take 192

/-- Rotated dimensions of a size, as reported while that rotation is
active. -/
def rotatedDims (sz : DisplaySize) (rot : DisplayRotation) : Nat × Nat :=
  match rot with
  | .Rotate0 | .Rotate180 => sz.dims
  | .Rotate90 | .Rotate270 => (sz.dims.2, sz.dims.1)

/-- Least touched coordinate, matching the fold `set_pixel` performs on the
dirty bounds (255 is the sentinel start value). -/
def boxMin (xs : List Nat) : Nat := xs.foldl min 255

/-- Greatest touched coordinate, matching the fold `set_pixel` performs on
the dirty bounds (0 is the sentinel start value). -/
def boxMax (xs : List Nat) : Nat := xs.foldl max 0

/-- Framebuffer states reachable from a fresh `GraphicsMode` by in-range
`set_pixel` calls, together with the list of touched coordinates. -/
inductive ReachableT (sz : DisplaySize) (rot : DisplayRotation) :
    GraphicsMode → List (Nat × Nat) → Prop where
  | base (p : DisplayProperties) (hs : p.display_size = sz)
      (hr : p.display_rotation = rot) :
      ReachableT sz rot (GraphicsMode.new p) []
  | step (g : GraphicsMode) (t : List (Nat × Nat)) (x y v : Nat)
      (hg : ReachableT sz rot g t)
      (hx : x < (rotatedDims sz rot).1) (hy : y < (rotatedDims sz rot).2) :
      ReachableT sz rot (g.set_pixel x y v) (t ++ [(x, y)])

/-- Sentinel (empty) dirty bounds. -/
def sentinelBounds (g : GraphicsMode) : Prop :=
  g.min_x = 255 ∧ g.max_x = 0 ∧ g.min_y = 255 ∧ g.max_y = 0

/-- A fault-free bus with an empty trace. -/
def ifaceOk : Iface := { sent := [], plan := [] }

/-- Concrete 128x64 properties in Horizontal mode on a fault-free bus. -/
def props64H : DisplayProperties :=
  { iface := ifaceOk
    display_size := .Display128x64
    display_rotation := .Rotate0
    display_offset := (0, 0)
    addr_mode := .Horizontal }

/-- Concrete 128x64 properties, rotated a quarter turn, Horizontal mode. -/
def props64R90 : DisplayProperties :=
  { props64H with display_rotation := .Rotate90 }

/-- Concrete 128x64 properties in Page mode. -/
def props64Page : DisplayProperties :=
  { props64H with addr_mode := .Page }

/-- Concrete 128x32 properties in Page mode (`set_pixel` touches no bus). -/
def props32 : DisplayProperties :=
  { props64H with display_size := .Display128x32, addr_mode := .Page }

/-- The Rotate90 state refuting the bounded-flush claim: one in-range pixel
at logical coordinate (0, 100). -/
def gRot90Cex : GraphicsMode :=
  (GraphicsMode.new props64R90).set_pixel 0 100 1

/-- A fresh 128x32 graphics mode. -/
def gm32 : GraphicsMode := GraphicsMode.new props32

/-- A fresh 128x64 graphics mode on a fault-free Horizontal-mode bus. -/
def gm64 : GraphicsMode := GraphicsMode.new props64H

/-- Concrete 128x64 properties whose bus fails the next transmission. -/
def props64Fail : DisplayProperties :=
  { props64H with iface := { sent := [], plan := [false] } }

/-- A dirtied 128x64 graphics mode whose bus fails the next transmission. -/
def gm64Fail : GraphicsMode :=
  { (gm64.set_pixel 5 9 1) with properties := props64Fail }

/-- Claim C2 (code_bug evidence): on a 128x32 panel at Rotate0 the
coordinate (0, 32) lies outside the rotated dimensions, yet `set_pixel`
writes byte 512 of the framebuffer — the first byte past the 512-byte active
slice — and widens the dirty bounds, contradicting the function's own
documentation that out-of-bounds calls are a no-op. -/
theorem set_pixel_out_of_range_corrupts_128x32 :
    32 ≥ gm32.get_dimensions.2 ∧
    gm32.buffer.getD 512 0 = 0 ∧
    (gm32.set_pixel 0 32 1).buffer.getD 512 0 = 1 ∧
    (gm32.set_pixel 0 32 1).max_y = 32 ∧ (gm32.set_pixel 0 32 1).min_y = 32 :=
  by decide

/-- Claim C3 (counterexample): `set_draw_area` in Page mode does not return
an `InvalidMode` error — it panics, returning no recoverable error at all —
though indeed nothing is transmitted. -/
theorem set_draw_area_page_mode_panics_concrete :
    (props64Page.set_draw_area (0, 0) (128, 64)).1 = Res.panicked ∧
    (∀ e : DisplayError,
      (props64Page.set_draw_area (0, 0) (128, 64)).1 ≠ Res.err e) ∧
    (props64Page.set_draw_area (0, 0) (128, 64)).2.iface.sent = [] :=
  ⟨by decide, fun e => by cases e; decide, by decide⟩

/-- Claim C3 (amended): `set_draw_area` in Page mode panics (it does not
return a recoverable `InvalidMode` error), and `set_column` / `set_row`
panic in Horizontal or Vertical mode; in each failing case the state —
including the transmitted-command trace — is completely unchanged, so no
bytes are transmitted. -/
theorem mode_guard_panics :
    (∀ (p : DisplayProperties) (s e : Nat × Nat), p.addr_mode = .Page →
      p.set_draw_area s e = (.panicked, p)) ∧
    (∀ (p : DisplayProperties) (c : Nat), p.addr_mode ≠ .Page →
      p.set_column c = (.panicked, p)) ∧
    (∀ (p : DisplayProperties) (r : Nat), p.addr_mode ≠ .Page →
      p.set_row r = (.panicked, p)) := by
  refine ⟨fun p s e h => ?_, fun p c h => ?_, fun p r h => ?_⟩
  · simp [DisplayProperties.set_draw_area, h]
  · cases hm : p.addr_mode <;>
      simp [DisplayProperties.set_column, hm] <;> exact absurd hm h
  · cases hm : p.addr_mode <;>
      simp [DisplayProperties.set_row, hm] <;> exact absurd hm h

/-- Claim C3 (witness): the amended behaviour at concrete states. -/
theorem mode_guard_panics_witness :
    props64Page.set_draw_area (0, 0) (128, 64) = (.panicked, props64Page) ∧
    props64H.set_column 3 = (.panicked, props64H) ∧
    props64H.set_row 9 = (.panicked, props64H) :=
  ⟨mode_guard_panics.1 props64Page (0, 0) (128, 64) rfl,
   mode_guard_panics.2.1 props64H 3 (by decide),
   mode_guard_panics.2.2 props64H 9 (by decide)⟩

/-- Claim C4: on a fault-free bus, `set_rotation` transmits exactly the
`SegmentRemap` and `ReverseComDir` commands, in that order, with the bit
pair of the table — Rotate0 gives (true, true), Rotate90 (false, true),
Rotate180 (false, false), Rotate270 (true, false) — and records the new
rotation. -/
theorem set_rotation_emits_bit_pair :
    ∀ (p : DisplayProperties) (r : DisplayRotation), p.iface.plan = [] →
      p.set_rotation r =
        (.ok (), { p with
          display_rotation := r
          iface := ⟨p.iface.sent ++
            [.SegmentRemap (match r with
              | .Rotate0 => true | .Rotate90 => false
              | .Rotate180 => false | .Rotate270 => true),
             .ReverseComDir (match r with
              | .Rotate0 => true | .Rotate90 => true
              | .Rotate180 => false | .Rotate270 => false)], []⟩ }) := by
  intro p r h
  cases r <;> simp [DisplayProperties.set_rotation, Iface.send, h]

/-- Claim C4 (witness): the Rotate270 pair at a concrete state. -/
theorem set_rotation_emits_bit_pair_witness :
    props64H.set_rotation .Rotate270 =
      (.ok (), { props64H with
        display_rotation := .Rotate270
        iface := ⟨[.SegmentRemap true, .ReverseComDir false], []⟩ }) :=
  set_rotation_emits_bit_pair props64H .Rotate270 rfl

/-- Claim C6 (counterexample): in a build without debug assertions the
out-of-range precharge value 16 is not rejected — both commands are
transmitted, carrying the invalid value. -/
theorem change_brightness_release_transmits_out_of_range :
    (props64H.change_brightness ⟨16, 0⟩ false).1 = Res.ok () ∧
    (props64H.change_brightness ⟨16, 0⟩ false).2.iface.sent =
      [.PreChargePeriod 1 16, .Contrast 0] := by decide

/-- Claim C6 (amended): the precharge range check is a `debug_assert!`: only
when debug assertions are enabled is a precharge outside [1, 15] rejected
(by a panic, before anything is transmitted and leaving the state
unchanged); the boundary values 1 and 15 are accepted in every build and the
two commands are then transmitted together. -/
theorem change_brightness_debug_assert_behavior :
    (∀ (p : DisplayProperties) (b : Brightness),
      ¬(0 < b.precharge ∧ b.precharge ≤ 15) →
      p.change_brightness b true = (.panicked, p)) ∧
    (∀ (p : DisplayProperties) (c : Nat) (dbg : Bool) (pre : Nat),
      p.iface.plan = [] → pre = 1 ∨ pre = 15 →
      p.change_brightness ⟨pre, c⟩ dbg =
        (.ok (), { p with iface :=
          { sent := p.iface.sent ++ [.PreChargePeriod 1 pre, .Contrast c]
            plan := [] } })) := by
  constructor
  · intro p b h
    simp [DisplayProperties.change_brightness, h]
  · rintro p c dbg pre h (rfl | rfl) <;>
      cases dbg <;>
      simp [DisplayProperties.change_brightness, Iface.send, h]

/-- Claim C6 (witness): concrete rejection of 16 with assertions enabled and
concrete acceptance of 15 with assertions disabled. -/
theorem change_brightness_debug_assert_behavior_witness :
    props64H.change_brightness ⟨16, 0⟩ true = (.panicked, props64H) ∧
    props64H.change_brightness ⟨15, 7⟩ false =
      (.ok (), { props64H with iface :=
        { sent := [.PreChargePeriod 1 15, .Contrast 7], plan := [] } }) :=
  ⟨change_brightness_debug_assert_behavior.1 props64H ⟨16, 0⟩ (by decide),
   change_brightness_debug_assert_behavior.2 props64H 7 false 15 rfl
     (Or.inr rfl)⟩

/-- Claim C7: `change_mode` transmits the addressing-mode command before
updating the local state: on success the local mode equals the requested one
and exactly that command was appended to the trace; on a transport error the
local mode and the trace are unchanged; the call never panics. -/
theorem change_mode_send_before_update :
    ∀ (p : DisplayProperties) (m : AddrMode),
      ((p.change_mode m).1 = Res.ok () →
        (p.change_mode m).2.addr_mode = m ∧
        (p.change_mode m).2.iface.sent =
          p.iface.sent ++ [.AddressMode m]) ∧
      (∀ e, (p.change_mode m).1 = Res.err e →
        (p.change_mode m).2.addr_mode = p.addr_mode ∧
        (p.change_mode m).2.iface.sent = p.iface.sent) ∧
      (p.change_mode m).1 ≠ Res.panicked := by
  intro p m
  unfold DisplayProperties.change_mode Iface.send
  cases hp : p.iface.plan with
  | nil => simp
  | cons b rest => cases b <;> simp

/-- Claim C7 (witness): a successful and a failing concrete transition. -/
theorem change_mode_send_before_update_witness :
    ((props64H.change_mode .Vertical).2.addr_mode = .Vertical ∧
      (props64H.change_mode .Vertical).2.iface.sent =
        [.AddressMode .Vertical]) ∧
    ((props64Fail.change_mode .Vertical).2.addr_mode = .Horizontal ∧
      (props64Fail.change_mode .Vertical).2.iface.sent = []) :=
  ⟨(change_mode_send_before_update props64H .Vertical).1 rfl,
   (change_mode_send_before_update props64Fail .Vertical).2.1
     .BusWriteError rfl⟩

/-- Claim C8 (counterexample): `clear` does change the dirty bounds — on a
fresh 128x64 display the sentinel bounds become the full frame. -/
theorem clear_changes_dirty_bounds :
    gm64.max_x = 0 ∧ gm64.clear.max_x = 127 ∧
    gm64.min_x = 255 ∧ gm64.clear.min_x = 0 := by decide

/-- Claim C8 (amended): `clear` zeroes the whole 1024-byte buffer (hence the
active slice) and itself sets the dirty bounds to the full rotated frame, so
callers need no separate full-frame invalidation; the properties (and hence
the bus) are untouched. -/
theorem clear_zeroes_and_marks_full_frame :
    ∀ g : GraphicsMode,
      g.clear.buffer = List.replicate 1024 0 ∧
      g.clear.min_x = 0 ∧
      g.clear.max_x = g.properties.get_dimensions.1 - 1 ∧
      g.clear.min_y = 0 ∧
      g.clear.max_y = g.properties.get_dimensions.2 - 1 ∧
      g.clear.properties = g.properties := by
  intro g
  cases hwh : g.properties.get_dimensions with
  | mk w h =>
      refine ⟨?_, ?_, ?_, ?_, ?_, ?_⟩ <;> simp only [GraphicsMode.clear, hwh]

/-- Structural effect of an in-range `set_pixel`: the addressed index is
inside the buffer, exactly that entry is overwritten with `updatedByte`, the
bit position is below 8, and the properties and bus are untouched. -/
theorem set_pixel_buffer_spec (g : GraphicsMode) (x y v : Nat)
    (hlen : g.buffer.length = 1024)
    (hx : x < g.properties.get_dimensions.1)
    (hy : y < g.properties.get_dimensions.2) :
    pixIdx g x y < 1024 ∧
    (g.set_pixel x y v).buffer =
      g.buffer.set (pixIdx g x y)
        (updatedByte (g.buffer.getD (pixIdx g x y) 0) (pixBit g x y) v) ∧
    pixBit g x y < 8 ∧
    (g.set_pixel x y v).properties = g.properties := by
  cases hrot : g.properties.display_rotation <;>
    cases hsz : g.properties.display_size <;>
      simp only [DisplayProperties.get_dimensions, DisplaySize.dims, hrot,
        hsz] at hx hy <;>
      simp only [GraphicsMode.set_pixel, pixIdx, pixBit, updatedByte,
        DisplaySize.dims, hrot, hsz, hlen] <;>
      refine ⟨by omega, ?_, by omega, ?_⟩ <;>
      rw [if_neg (by omega), if_neg (by omega)]

/-- Bit tests of the u8 constant 255. -/
theorem testBit_255 (k : Nat) : Nat.testBit 255 k = decide (k < 8) := by
  have h := Nat.testBit_two_pow_sub_one 8 k
  norm_num at h
  exact h

/-- Bit `k` of the stored byte equals the written value. -/
theorem updatedByte_testBit_self (b k v : Nat) (hk : k < 8) :
    (updatedByte b k v).testBit k = decide (v ≠ 0) := by
  unfold updatedByte
  by_cases hv : v = 0 <;>
    simp [hv, Nat.testBit_land, Nat.testBit_xor, Nat.testBit_two_pow,
      testBit_255, hk]

/-- Every bit other than `k` of the stored byte is unchanged (for a genuine
u8 byte value). -/
theorem updatedByte_testBit_other (b k v kk : Nat) (hb : b < 256)
    (hkk : kk ≠ k) :
    (updatedByte b k v).testBit kk = b.testBit kk := by
  unfold updatedByte
  by_cases hv : v = 0
  · by_cases h8 : kk < 8
    · simp [hv, Nat.testBit_land, Nat.testBit_xor, Nat.testBit_two_pow,
        testBit_255, h8]
      exact fun _ h => hkk h.symm
    · have h256 : (256 : Nat) ≤ 2 ^ kk := by
        calc (256 : Nat) = 2 ^ 8 := by norm_num
          _ ≤ 2 ^ kk := Nat.pow_le_pow_right (by norm_num) (by omega)
      have hlt : b < 2 ^ kk := by omega
      simp [hv, Nat.testBit_land, Nat.testBit_xor, Nat.testBit_two_pow,
        testBit_255, h8, Nat.testBit_lt_two_pow hlt]
  · simp [hv, Nat.testBit_lor, Nat.testBit_two_pow]
    exact fun h => absurd h.symm hkk

/-- Claim C5: for every rotation and every coordinate in range for the
rotated dimensions, `set_pixel` followed by the rotation-dependent byte/bit
decode at the same logical coordinate reads back exactly the written on/off
value, whatever the prior buffer content. -/
theorem set_pixel_readback (g : GraphicsMode) (x y v : Nat)
    (hlen : g.buffer.length = 1024)
    (hx : x < g.properties.get_dimensions.1)
    (hy : y < g.properties.get_dimensions.2) :
    (g.set_pixel x y v).readPixel x y = decide (v ≠ 0) := by
  obtain ⟨hidx, hbuf, hbit, hprops⟩ := set_pixel_buffer_spec g x y v hlen hx hy
  have hget : (g.set_pixel x y v).buffer.getD (pixIdx g x y) 0 =
      updatedByte (g.buffer.getD (pixIdx g x y) 0) (pixBit g x y) v := by
    rw [hbuf, List.getD_eq_getElem?_getD,
      List.getElem?_set_self (by omega : pixIdx g x y < g.buffer.length)]
    rfl
  have hread : (g.set_pixel x y v).readPixel x y =
      ((g.set_pixel x y v).buffer.getD (pixIdx g x y) 0).testBit
        (pixBit g x y) := by
    unfold GraphicsMode.readPixel pixIdx pixBit
    rw [hprops]
    cases g.properties.display_rotation <;> rfl
  rw [hread, hget, updatedByte_testBit_self _ _ _ hbit]

/-- Claim C5 (witness): a concrete in-range readback on a quarter-turned
128x64 display. -/
theorem set_pixel_readback_witness :
    ((GraphicsMode.new props64R90).set_pixel 10 3 7).readPixel 10 3 =
      decide ((7 : Nat) ≠ 0) :=
  set_pixel_readback (GraphicsMode.new props64R90) 10 3 7 (by decide)
    (by decide) (by decide)

/-- Claim C10: an in-range `set_pixel` modifies at most the one byte at the
rotation-dependent index; within that byte at most the bit `y % 8`
(rotations 0/180) or `x % 8` (rotations 90/270); every other byte is
unchanged, and the addressed bit ends up cleared exactly when the value is 0
and set exactly when it is non-zero. -/
theorem set_pixel_single_bit_effect (g : GraphicsMode) (x y v : Nat)
    (hlen : g.buffer.length = 1024)
    (hbytes : ∀ b ∈ g.buffer, b < 256)
    (hx : x < g.properties.get_dimensions.1)
    (hy : y < g.properties.get_dimensions.2) :
    (∀ j, j ≠ pixIdx g x y →
      (g.set_pixel x y v).buffer.getD j 0 = g.buffer.getD j 0) ∧
    (∀ k, k ≠ pixBit g x y →
      ((g.set_pixel x y v).buffer.getD (pixIdx g x y) 0).testBit k =
        (g.buffer.getD (pixIdx g x y) 0).testBit k) ∧
    ((g.set_pixel x y v).buffer.getD (pixIdx g x y) 0).testBit
      (pixBit g x y) = decide (v ≠ 0) := by
  obtain ⟨hidx, hbuf, hbit, hprops⟩ := set_pixel_buffer_spec g x y v hlen hx hy
  have hget : (g.set_pixel x y v).buffer.getD (pixIdx g x y) 0 =
      updatedByte (g.buffer.getD (pixIdx g x y) 0) (pixBit g x y) v := by
    rw [hbuf, List.getD_eq_getElem?_getD,
      List.getElem?_set_self (by omega : pixIdx g x y < g.buffer.length)]
    rfl
  have hmem : g.buffer.getD (pixIdx g x y) 0 ∈ g.buffer := by
    have hi : pixIdx g x y < g.buffer.length := by omega
    rw [List.getD_eq_getElem?_getD, List.getElem?_eq_getElem hi]
    exact List.getElem_mem hi
  refine ⟨fun j hj => ?_, fun k hk => ?_, ?_⟩
  · rw [hbuf, List.getD_eq_getElem?_getD,
      List.getElem?_set_ne (fun h => hj h.symm), ← List.getD_eq_getElem?_getD]
  · rw [hget, updatedByte_testBit_other _ _ _ _ (hbytes _ hmem) hk]
  · rw [hget, updatedByte_testBit_self _ _ _ hbit]

/-- Claim C10 (witness): a concrete single-bit effect at (5, 9) on a fresh
128x64 display: byte 133 is addressed with bit 1. -/
theorem set_pixel_single_bit_effect_witness :
    ((gm64.set_pixel 5 9 1).buffer.getD 0 0 = gm64.buffer.getD 0 0) ∧
    ((gm64.set_pixel 5 9 1).buffer.getD (pixIdx gm64 5 9) 0).testBit
      (pixBit gm64 5 9) = decide ((1 : Nat) ≠ 0) :=
  ⟨(set_pixel_single_bit_effect gm64 5 9 1 (by decide)
      (fun b hb => by
        have : b = 0 := List.eq_of_mem_replicate hb
        omega)
      (by decide) (by decide)).1 0 (by decide),
   (set_pixel_single_bit_effect gm64 5 9 1 (by decide)
      (fun b hb => by
        have : b = 0 := List.eq_of_mem_replicate hb
        omega)
      (by decide) (by decide)).2.2⟩

/-- Claim C9 (counterexample): the dirty bounds are not reset before the bus
transactions of a flush: when the draw-area command itself fails on the
transport, `flush` returns the error with the bounds still holding their
pre-flush values (5, 5, 9, 9), not the empty sentinel. -/
theorem flush_transport_failure_keeps_bounds :
    (gm64Fail.flush).1 = Res.err .BusWriteError ∧
    gm64Fail.min_x = 5 ∧ gm64Fail.max_y = 9 ∧
    (gm64Fail.flush).2.min_x = 5 ∧ (gm64Fail.flush).2.max_x = 5 ∧
    (gm64Fail.flush).2.min_y = 9 ∧ (gm64Fail.flush).2.max_y = 9 := by decide

/-- Claim C9 (amended): the dirty bounds are created as the empty sentinel
at construction and only widen under `set_pixel`; on both flush paths they
are reset to the sentinel after the draw-area commands succeed and before
the data transmission — so a data-phase transport failure still leaves them
reset, but a failure of the draw-area commands themselves leaves them
completely unchanged (an empty dirty region makes `fast_flush` fall back to
`flush`). -/
theorem dirty_bounds_reset_discipline :
    (∀ p : DisplayProperties, sentinelBounds (GraphicsMode.new p)) ∧
    (∀ (g : GraphicsMode) (x y v : Nat),
      (g.set_pixel x y v).min_x ≤ g.min_x ∧
      g.max_x ≤ (g.set_pixel x y v).max_x ∧
      (g.set_pixel x y v).min_y ≤ g.min_y ∧
      g.max_y ≤ (g.set_pixel x y v).max_y) ∧
    (∀ g : GraphicsMode,
      ((g.properties.set_draw_area (0, 0) g.properties.display_size.dims).1 =
          Res.ok () → sentinelBounds (g.flush).2) ∧
      ((g.properties.set_draw_area (0, 0) g.properties.display_size.dims).1 ≠
          Res.ok () →
        (g.flush).2.min_x = g.min_x ∧ (g.flush).2.max_x = g.max_x ∧
        (g.flush).2.min_y = g.min_y ∧ (g.flush).2.max_y = g.max_y)) ∧
    (∀ g : GraphicsMode, g.max_x < g.min_x ∨ g.max_y < g.min_y →
      g.fast_flush = g.flush) ∧
    (∀ g : GraphicsMode, ¬(g.max_x < g.min_x ∨ g.max_y < g.min_y) →
      ((g.properties.set_draw_area (g.min_x, g.min_y) (fastWindow g)).1 =
          Res.ok () → sentinelBounds (g.fast_flush).2) ∧
      ((g.properties.set_draw_area (g.min_x, g.min_y) (fastWindow g)).1 ≠
          Res.ok () →
        (g.fast_flush).2.min_x = g.min_x ∧
        (g.fast_flush).2.max_x = g.max_x ∧
        (g.fast_flush).2.min_y = g.min_y ∧
        (g.fast_flush).2.max_y = g.max_y)) := by
  refine ⟨fun p => ⟨rfl, rfl, rfl, rfl⟩, fun g x y v => ?_, fun g => ?_,
    fun g hguard => ?_, fun g hguard => ?_⟩
  · unfold GraphicsMode.set_pixel
    cases g.properties.display_rotation <;> dsimp only <;>
      (repeat' split) <;> simp <;> omega
  · cases hd : g.properties.display_size.dims with
    | mk w h =>
        unfold GraphicsMode.flush
        cases hsda : g.properties.set_draw_area (0, 0)
            g.properties.display_size.dims with
        | mk r p' =>
            rw [hd] at hsda
            rw [show ((0, 0) : Nat × Nat) = 0 from rfl] at hsda
            cases r <;>
              simp [GraphicsMode.flush, hd, hsda, sentinelBounds,
                DisplayProperties.draw]
  · unfold GraphicsMode.fast_flush
    rw [if_pos hguard]
  · cases hd : g.properties.display_size.dims with
    | mk w h =>
        unfold GraphicsMode.fast_flush fastWindow
        rw [if_neg hguard]
        cases hsda : g.properties.set_draw_area (g.min_x, g.min_y)
            (fastWindow g) with
        | mk r p' =>
            unfold fastWindow at hsda
            rw [hd] at hsda ⊢
            dsimp only at hsda ⊢
            rw [hsda]
            cases r <;>
              simp [sentinelBounds, DisplayProperties.bounded_draw]

/-- Claim C9 (witness): after a successful draw-area phase the bounds of a
dirtied display are reset by `flush`, and with a failing transport
`fast_flush` leaves them unchanged. -/
theorem dirty_bounds_reset_discipline_witness :
    sentinelBounds ((gm64.set_pixel 5 9 1).flush).2 ∧
    (gm64Fail.fast_flush).2.min_x = gm64Fail.min_x ∧
    (gm64Fail.fast_flush).2.max_x = gm64Fail.max_x ∧
    (gm64Fail.fast_flush).2.min_y = gm64Fail.min_y ∧
    (gm64Fail.fast_flush).2.max_y = gm64Fail.max_y :=
  ⟨(dirty_bounds_reset_discipline.2.2.1 (gm64.set_pixel 5 9 1)).1 (by decide),
   (dirty_bounds_reset_discipline.2.2.2.2 gm64Fail (by decide)).2 (by decide)⟩

/-- Reading a dropped list is reading at an offset. -/
theorem getD_drop (l : List Nat) (a j d : Nat) :
    (l.drop a).getD j d = l.getD (a + j) d := by
  rw [List.getD_eq_getElem?_getD, List.getD_eq_getElem?_getD,
    List.getElem?_drop]

/-- Reading inside the taken prefix is reading the original list. -/
theorem getD_take (l : List Nat) (n j d : Nat) (hj : j < n) :
    (l.take n).getD j d = l.getD j d := by
  rw [List.getD_eq_getElem?_getD, List.getD_eq_getElem?_getD,
    List.getElem?_take, if_pos hj]

/-- Reading a `bandSlice` is reading the framebuffer at the addressed
position. -/
theorem bandSlice_getD (l : List Nat) (w p lo n j : Nat) (hj : j < n)
    (hlo : lo + j < w) :
    (bandSlice l w p lo n).getD j 0 = l.getD (p * w + (lo + j)) 0 := by
  unfold bandSlice
  rw [getD_take _ _ _ _ hj, getD_drop, getD_take _ _ _ _ hlo, getD_drop]

/-- The `i`-th chunk is the `i`-th width-sized window of the list. -/
theorem chunksGo_getD (w : Nat) (hw : 0 < w) :
    ∀ (f : Nat) (l : List Nat) (i : Nat), l.length ≤ f →
      (chunksGo w f l).getD i [] = (l.drop (i * w)).take w := by
  intro f
  induction f with
  | zero =>
      intro l i hl
      have : l = [] := List.eq_nil_of_length_eq_zero (by omega)
      subst this
      simp [chunksGo]
  | succ f ih =>
      intro l i hl
      cases l with
      | nil => simp [chunksGo]
      | cons x xs =>
          cases i with
          | zero => simp [chunksGo]
          | succ i =>
              have hlen : ((x :: xs).drop w).length ≤ f := by
                simp [List.length_drop, List.length_cons] at hl ⊢
                omega
              calc (chunksGo w (f + 1) (x :: xs)).getD (i + 1) []
                  = (chunksGo w f ((x :: xs).drop w)).getD i [] := by
                    simp [chunksGo]
                _ = (((x :: xs).drop w).drop (i * w)).take w := ih _ _ hlen
                _ = ((x :: xs).drop ((i + 1) * w)).take w := by
                    rw [List.drop_drop]
                    congr 2
                    ring

/-- A chunk index whose window starts inside the list is a valid index. -/
theorem chunksGo_lt_length (w : Nat) (hw : 0 < w) :
    ∀ (f : Nat) (l : List Nat) (i : Nat), l.length ≤ f → i * w < l.length →
      i < (chunksGo w f l).length := by
  intro f
  induction f with
  | zero => intro l i hl hi; omega
  | succ f ih =>
      intro l i hl hi
      cases l with
      | nil => simp at hi
      | cons x xs =>
          cases i with
          | zero => simp [chunksGo]
          | succ i =>
              have h1 : i * w < ((x :: xs).drop w).length := by
                simp [List.length_drop, List.length_cons] at hi ⊢
                have : (i + 1) * w = i * w + w := by ring
                omega
              have h2 : ((x :: xs).drop w).length ≤ f := by
                simp [List.length_drop, List.length_cons] at hl ⊢
                omega
              have := ih ((x :: xs).drop w) i h2 h1
              simp [chunksGo]
              omega

/-- A `drop`-`take` window of a list of chunks, all indices valid, is the
range-map of its entries. -/
theorem drop_take_eq_range_map (cl : List (List Nat)) :
    ∀ (n s : Nat), (∀ k, k < n → s + k < cl.length) →
      (cl.drop s).take n =
        (List.range n).map (fun k => cl.getD (s + k) []) := by
  intro n
  induction n with
  | zero => simp
  | succ n ih =>
      intro s hk
      have hs : s < cl.length := by have := hk 0 (by omega); omega
      have hcons : cl.getD s [] = cl[s] := by
        rw [List.getD_eq_getElem?_getD, List.getElem?_eq_getElem hs]
        rfl
      rw [← List.getElem_cons_drop cl s hs, List.take_succ_cons,
        List.range_succ_eq_map, List.map_cons, List.map_map]
      have harg : ∀ k, s + 1 + k = s + (k + 1) := by omega
      have hrec := ih (s + 1) (fun k hkn => by
        have := hk (k + 1) (by omega)
        omega)
      rw [hrec]
      refine congrArg₂ _ hcons.symm ?_
      refine List.map_congr_left fun k _ => ?_
      simp [Function.comp, Nat.succ_eq_add_one, harg k]

/-- A send on a fault-free bus succeeds and appends the command. -/
theorem send_ok (i : Iface) (c : Cmd) (h : i.plan = []) :
    i.send c = (⟨i.sent ++ [c], []⟩, true) := by
  simp [Iface.send, h]

/-- Sending all chunks on a fault-free bus succeeds and appends them all as
data commands. -/
theorem sendAll_ok (cs : List (List Nat)) :
    ∀ i : Iface, i.plan = [] →
      i.sendAll cs = (.ok (), ⟨i.sent ++ cs.map Cmd.Data, []⟩) := by
  induction cs with
  | nil => intro i h; simp [Iface.sendAll, ← h]
  | cons c rest ih =>
      intro i h
      rw [Iface.sendAll, send_ok i _ h]
      dsimp only
      rw [ih ⟨i.sent ++ [Cmd.Data c], []⟩ rfl]
      simp

/-- A successful `set_draw_area` transmits the column window and the
page-converted row window. -/
theorem set_draw_area_ok (p : DisplayProperties) (s f : Nat × Nat)
    (hmode : p.addr_mode ≠ .Page) (hplan : p.iface.plan = []) :
    p.set_draw_area s f =
      (.ok (), { p with iface := ⟨p.iface.sent ++
        [.ColumnAddress s.1 (u8sub f.1 1),
         .PageAddress (s.2 / 8) (u8sub f.2 1 / 8)], []⟩ }) := by
  cases ham : p.addr_mode with
  | Page => exact absurd ham hmode
  | Horizontal =>
      unfold DisplayProperties.set_draw_area
      rw [ham]
      dsimp only
      rw [send_ok _ _ hplan]
      dsimp only
      rw [send_ok _ _ rfl]
      simp
  | Vertical =>
      unfold DisplayProperties.set_draw_area
      rw [ham]
      dsimp only
      rw [send_ok _ _ hplan]
      dsimp only
      rw [send_ok _ _ rfl]
      simp

/-- Rounding a row below 64 up with `||| 7` is rounding up to the end of its
page. -/
theorem or_seven_eq (m : Nat) (hm : m < 64) : m ||| 7 = 8 * (m / 8) + 7 := by
  revert hm
  revert m
  decide

/-- Appending a coordinate folds one more `min` step. -/
theorem boxMin_append (xs : List Nat) (x : Nat) :
    boxMin (xs ++ [x]) = min (boxMin xs) x := by
  simp [boxMin, List.foldl_append]

/-- Appending a coordinate folds one more `max` step. -/
theorem boxMax_append (xs : List Nat) (x : Nat) :
    boxMax (xs ++ [x]) = max (boxMax xs) x := by
  simp [boxMax, List.foldl_append]

/-- A `min` fold never exceeds its start value. -/
theorem foldl_min_le_init (xs : List Nat) :
    ∀ a : Nat, xs.foldl min a ≤ a := by
  induction xs with
  | nil => intro a; simp
  | cons y ys ih =>
      intro a
      calc ys.foldl min (min a y) ≤ min a y := ih (min a y)
        _ ≤ a := Nat.min_le_left a y

/-- A `max` fold is at least its start value. -/
theorem le_foldl_max_init (xs : List Nat) :
    ∀ a : Nat, a ≤ xs.foldl max a := by
  induction xs with
  | nil => intro a; simp
  | cons y ys ih =>
      intro a
      calc a ≤ max a y := Nat.le_max_left a y
        _ ≤ ys.foldl max (max a y) := ih (max a y)

/-- The least touched coordinate is a lower bound for every member. -/
theorem boxMin_le_of_mem (xs : List Nat) (x : Nat) (hx : x ∈ xs) :
    boxMin xs ≤ x := by
  unfold boxMin
  generalize 255 = a
  induction xs generalizing a with
  | nil => cases hx
  | cons y ys ih =>
      cases List.mem_cons.mp hx with
      | inl h =>
          subst h
          calc ys.foldl min (min a x) ≤ min a x := foldl_min_le_init ys _
            _ ≤ x := Nat.min_le_right a x
      | inr h => exact ih h (min a y)

/-- The greatest touched coordinate is an upper bound for every member. -/
theorem le_boxMax_of_mem (xs : List Nat) (x : Nat) (hx : x ∈ xs) :
    x ≤ boxMax xs := by
  unfold boxMax
  generalize 0 = a
  induction xs generalizing a with
  | nil => cases hx
  | cons y ys ih =>
      cases List.mem_cons.mp hx with
      | inl h =>
          subst h
          calc x ≤ max a x := Nat.le_max_right a x
            _ ≤ ys.foldl max (max a x) := le_foldl_max_init ys _
      | inr h => exact ih h (max a y)

/-- The greatest touched coordinate respects a bound satisfied by every
member. -/
theorem boxMax_lt (xs : List Nat) (w : Nat) (hw : 0 < w)
    (hmem : ∀ x ∈ xs, x < w) : boxMax xs < w := by
  unfold boxMax
  have : ∀ a : Nat, a < w → xs.foldl max a < w := by
    induction xs with
    | nil => intro a ha; simpa using ha
    | cons y ys ih =>
        intro a ha
        exact ih (fun x hx => hmem x (List.mem_cons_of_mem y hx)) (max a y)
          (by
            have := hmem y (List.mem_cons_self y ys)
            omega)
  exact this 0 hw

/-- Effect of an in-range `set_pixel` on the dirty bounds at rotations 0 and
180: the exact min / max folds, with everything else but the buffer
untouched. -/
theorem set_pixel_bounds_rot0_180 (g : GraphicsMode) (x y v : Nat)
    (hrot : g.properties.display_rotation = .Rotate0 ∨
      g.properties.display_rotation = .Rotate180)
    (hlen : g.buffer.length = 1024)
    (hx : x < g.properties.display_size.dims.1)
    (hy : y < g.properties.display_size.dims.2) :
    (g.set_pixel x y v).min_x = min g.min_x x ∧
    (g.set_pixel x y v).max_x = max g.max_x x ∧
    (g.set_pixel x y v).min_y = min g.min_y y ∧
    (g.set_pixel x y v).max_y = max g.max_y y ∧
    (g.set_pixel x y v).properties = g.properties ∧
    (g.set_pixel x y v).buffer.length = 1024 := by
  cases hsz : g.properties.display_size <;>
    rw [hsz] at hx hy <;>
    simp only [DisplaySize.dims] at hx hy <;>
    cases hrot with
  | _ hr =>
      simp only [GraphicsMode.set_pixel, hr, hsz, DisplaySize.dims]
      rw [if_neg (by omega), if_neg (by omega)]
      dsimp only
      rw [Nat.mod_eq_of_lt (show x < 256 by omega),
        Nat.mod_eq_of_lt (show y < 256 by omega)]
      refine ⟨by split <;> omega, by split <;> omega, by split <;> omega,
        by split <;> omega, rfl, by simp [List.length_set, hlen]⟩

/-- Invariant of states reachable by in-range `set_pixel` calls at rotations
0 / 180: geometry and rotation are those of construction, the buffer keeps
its 1024 bytes, the dirty bounds are exactly the min / max folds over the
touched coordinates, and every touched coordinate is inside the panel. -/
theorem reach_inv (sz : DisplaySize) (rot : DisplayRotation)
    (g : GraphicsMode) (t : List (Nat × Nat))
    (h : ReachableT sz rot g t)
    (hrot : rot = .Rotate0 ∨ rot = .Rotate180) :
    g.properties.display_size = sz ∧
    g.properties.display_rotation = rot ∧
    g.buffer.length = 1024 ∧
    g.min_x = boxMin (t.map Prod.fst) ∧
    g.max_x = boxMax (t.map Prod.fst) ∧
    g.min_y = boxMin (t.map Prod.snd) ∧
    g.max_y = boxMax (t.map Prod.snd) ∧
    (∀ q ∈ t, q.1 < sz.dims.1 ∧ q.2 < sz.dims.2) := by
  induction h with
  | base p hs hr =>
      exact ⟨hs, hr, by simp [GraphicsMode.new], rfl, rfl, rfl, rfl,
        by simp⟩
  | step g' t' x y v hg hx hy ih =>
      obtain ⟨ihs, ihr, ihlen, imnx, imxx, imny, imxy, imem⟩ := ih
      have hrd : rotatedDims sz rot = sz.dims := by
        cases hrot with
        | inl hh => subst hh; rfl
        | inr hh => subst hh; rfl
      rw [hrd] at hx hy
      have hbs := set_pixel_bounds_rot0_180 g' x y v
        (hrot.imp (fun hh => ihr.trans hh) (fun hh => ihr.trans hh)) ihlen
        (by rw [ihs]; exact hx) (by rw [ihs]; exact hy)
      obtain ⟨b1, b2, b3, b4, bprops, blen⟩ := hbs
      refine ⟨by rw [bprops]; exact ihs, by rw [bprops]; exact ihr, blen,
        ?_, ?_, ?_, ?_, ?_⟩
      · rw [b1, imnx]; simp [List.map_append, boxMin_append]
      · rw [b2, imxx]; simp [List.map_append, boxMax_append]
      · rw [b3, imny]; simp [List.map_append, boxMin_append]
      · rw [b4, imxy]; simp [List.map_append, boxMax_append]
      · intro q hq
        cases List.mem_append.mp hq with
        | inl hmem => exact imem q hmem
        | inr hmem =>
            have : q = (x, y) := by simpa using hmem
            subst this
            exact ⟨hx, hy⟩

/-- On a fault-free bus outside Page mode, `flush` succeeds and transmits
the full-frame window followed by the active buffer slice. -/
theorem flush_spec (g : GraphicsMode)
    (hmode : g.properties.addr_mode ≠ .Page)
    (hplan : g.properties.iface.plan = []) :
    ∃ gfull, g.flush = (.ok (), gfull) ∧
      gfull.properties.iface.sent = g.properties.iface.sent ++
        [.ColumnAddress 0 (g.properties.display_size.dims.1 - 1),
         .PageAddress 0 ((g.properties.display_size.dims.2 - 1) / 8),
         .Data (flushPayload g)] := by
  cases hsz : g.properties.display_size <;>
  · unfold GraphicsMode.flush
    rw [hsz]
    dsimp only [DisplaySize.dims]
    rw [set_draw_area_ok _ _ _ hmode hplan]
    dsimp only
    unfold DisplayProperties.draw
    rw [send_ok _ _ rfl]
    dsimp only
    refine ⟨_, rfl, ?_⟩
    simp [flushPayload, hsz, u8sub]

/-- On a fault-free bus outside Page mode, a `fast_flush` of a non-empty
in-range dirty region succeeds and transmits exactly the page-aligned
rectangle of the dirty bounds: the clamped column / page window followed by
one band per covered page. -/
theorem fast_flush_spec (g : GraphicsMode)
    (hmode : g.properties.addr_mode ≠ .Page)
    (hplan : g.properties.iface.plan = [])
    (hlen : g.buffer.length = 1024)
    (hxx : g.min_x ≤ g.max_x) (hyy : g.min_y ≤ g.max_y)
    (hmx : g.max_x < g.properties.display_size.dims.1)
    (hmy : g.max_y < g.properties.display_size.dims.2) :
    ∃ gf, g.fast_flush = (.ok (), gf) ∧
      gf.properties.iface.sent = g.properties.iface.sent ++
        [.ColumnAddress g.min_x g.max_x,
         .PageAddress (g.min_y / 8) (g.max_y / 8)] ++
        (List.range (g.max_y / 8 - g.min_y / 8 + 1)).map (fun k =>
          .Data (bandSlice g.buffer g.properties.display_size.dims.1
            (g.min_y / 8 + k) g.min_x (g.max_x + 1 - g.min_x))) := by
  cases hsz : g.properties.display_size <;>
  · rw [hsz] at hmx hmy
    dsimp only [DisplaySize.dims] at hmx hmy
    unfold GraphicsMode.fast_flush
    rw [if_neg (by omega)]
    rw [hsz]
    dsimp only [DisplaySize.dims]
    have hadd : u8add g.max_x 1 = g.max_x + 1 := by unfold u8add; omega
    have hor : g.max_y ||| 7 = 8 * (g.max_y / 8) + 7 :=
      or_seven_eq _ (by omega)
    rw [hadd, if_neg (by omega), hor, if_neg (by omega)]
    rw [set_draw_area_ok _ _ _ hmode hplan]
    dsimp only
    have hc : u8sub (g.max_x + 1) 1 = g.max_x := by unfold u8sub; omega
    have hp : u8sub (8 * (g.max_y / 8) + 7) 1 / 8 = g.max_y / 8 := by
      unfold u8sub; omega
    rw [hc, hp]
    unfold DisplayProperties.bounded_draw
    dsimp only
    have hnum : u8sub (8 * (g.max_y / 8) + 7) g.min_y / 8 + 1 =
        g.max_y / 8 - g.min_y / 8 + 1 := by
      unfold u8sub; omega
    rw [hnum]
    have hklen : ∀ k, k < g.max_y / 8 - g.min_y / 8 + 1 →
        g.min_y / 8 + k <
          (chunksExact g.properties.display_size.dims.1 g.buffer).length := by
      intro k hk
      rw [hsz]
      dsimp only [DisplaySize.dims]
      unfold chunksExact
      apply chunksGo_lt_length _ (by norm_num) _ _ _ (le_refl _)
      rw [hlen]
      omega
    rw [hsz] at hklen
    dsimp only [DisplaySize.dims] at hklen
    rw [drop_take_eq_range_map _ _ _ hklen]
    rw [List.map_map]
    unfold Function.comp
    have hband : ∀ k ∈ List.range (g.max_y / 8 - g.min_y / 8 + 1),
        ((((chunksExact g.properties.display_size.dims.1 g.buffer).getD
            (g.min_y / 8 + k) []).drop g.min_x).take
            (g.max_x + 1 - g.min_x)) =
          bandSlice g.buffer g.properties.display_size.dims.1
            (g.min_y / 8 + k) g.min_x (g.max_x + 1 - g.min_x) := by
      intro k _
      unfold chunksExact
      rw [chunksGo_getD _ (by rw [hsz]; norm_num [DisplaySize.dims]) _ _ _
        (le_refl _)]
      rfl
    rw [hsz] at hband
    dsimp only [DisplaySize.dims] at hband
    rw [List.map_congr_left hband]
    rw [sendAll_ok _ _ rfl]
    dsimp only
    refine ⟨_, rfl, ?_⟩
    simp [hsz, List.map_map]

/-- Reading the flush payload inside the active slice reads the
framebuffer. -/
theorem flushPayload_getD (g : GraphicsMode) (idx : Nat)
    (hidx : idx < g.properties.display_size.dims.1 *
      (g.properties.display_size.dims.2 / 8)) :
    (flushPayload g).getD idx 0 = g.buffer.getD idx 0 := by
  cases hsz : g.properties.display_size <;>
  · rw [hsz] at hidx
    simp only [DisplaySize.dims] at hidx
    unfold flushPayload
    rw [hsz]
    all_goals exact getD_take g.buffer _ idx 0 (by omega)

/-- Claim C1 (amended, restricted to rotations 0 and 180): for every
framebuffer state reachable by in-range `set_pixel` calls under Rotate0 or
Rotate180 — with the addressing mode out of Page and a fault-free bus —
if no pixel was touched `fast_flush` falls back to `flush`; otherwise
`fast_flush` succeeds and transmits exactly the page-aligned rectangle
covering all touched coordinates (the column window of the touched x-bounds
and one band per touched page), `flush` succeeds transmitting the full
window and the active slice, and every transmitted band byte equals the
byte the full flush places at the same addressed position.  (At rotations
90 / 270 the claim fails, see the counterexample.) -/
theorem fast_flush_refines_flush_rot0_180 (sz : DisplaySize)
    (rot : DisplayRotation) (g : GraphicsMode) (t : List (Nat × Nat))
    (hreach : ReachableT sz rot g t)
    (hrot : rot = .Rotate0 ∨ rot = .Rotate180)
    (hmode : g.properties.addr_mode ≠ .Page)
    (hplan : g.properties.iface.plan = []) :
    (t = [] → g.fast_flush = g.flush) ∧
    (t ≠ [] →
      (∃ gf, g.fast_flush = (.ok (), gf) ∧
        gf.properties.iface.sent = g.properties.iface.sent ++
          [.ColumnAddress (boxMin (t.map Prod.fst))
             (boxMax (t.map Prod.fst)),
           .PageAddress (boxMin (t.map Prod.snd) / 8)
             (boxMax (t.map Prod.snd) / 8)] ++
          (List.range (boxMax (t.map Prod.snd) / 8 -
              boxMin (t.map Prod.snd) / 8 + 1)).map (fun k =>
            .Data (bandSlice g.buffer sz.dims.1
              (boxMin (t.map Prod.snd) / 8 + k) (boxMin (t.map Prod.fst))
              (boxMax (t.map Prod.fst) + 1 - boxMin (t.map Prod.fst))))) ∧
      (∃ gfull, g.flush = (.ok (), gfull) ∧
        gfull.properties.iface.sent = g.properties.iface.sent ++
          [.ColumnAddress 0 (sz.dims.1 - 1),
           .PageAddress 0 ((sz.dims.2 - 1) / 8),
           .Data (flushPayload g)]) ∧
      (∀ k j,
        k ≤ boxMax (t.map Prod.snd) / 8 - boxMin (t.map Prod.snd) / 8 →
        j ≤ boxMax (t.map Prod.fst) - boxMin (t.map Prod.fst) →
        (bandSlice g.buffer sz.dims.1 (boxMin (t.map Prod.snd) / 8 + k)
          (boxMin (t.map Prod.fst))
          (boxMax (t.map Prod.fst) + 1 - boxMin (t.map Prod.fst))).getD
            j 0 =
        (flushPayload g).getD
          ((boxMin (t.map Prod.snd) / 8 + k) * sz.dims.1 +
            (boxMin (t.map Prod.fst) + j)) 0)) := by
  obtain ⟨ihs, ihr, ihlen, imnx, imxx, imny, imxy, imem⟩ :=
    reach_inv sz rot g t hreach hrot
  constructor
  · intro ht
    subst ht
    simp only [List.map_nil, boxMin, boxMax, List.foldl_nil] at imnx imxx
    unfold GraphicsMode.fast_flush
    rw [if_pos (Or.inl (by omega))]
  · intro ht
    obtain ⟨q, hq⟩ := List.exists_mem_of_ne_nil t ht
    have hq1x : boxMin (t.map Prod.fst) ≤ q.1 :=
      boxMin_le_of_mem _ _ (List.mem_map_of_mem _ hq)
    have hq2x : q.1 ≤ boxMax (t.map Prod.fst) :=
      le_boxMax_of_mem _ _ (List.mem_map_of_mem _ hq)
    have hq1y : boxMin (t.map Prod.snd) ≤ q.2 :=
      boxMin_le_of_mem _ _ (List.mem_map_of_mem _ hq)
    have hq2y : q.2 ≤ boxMax (t.map Prod.snd) :=
      le_boxMax_of_mem _ _ (List.mem_map_of_mem _ hq)
    have hw0 : 0 < sz.dims.1 := by cases sz <;> decide
    have hh0 : 0 < sz.dims.2 := by cases sz <;> decide
    have hbx : boxMax (t.map Prod.fst) < sz.dims.1 := by
      refine boxMax_lt _ _ hw0 fun x hx => ?_
      obtain ⟨q', hq', hqx⟩ := List.mem_map.mp hx
      rw [← hqx]
      exact (imem q' hq').1
    have hby : boxMax (t.map Prod.snd) < sz.dims.2 := by
      refine boxMax_lt _ _ hh0 fun x hx => ?_
      obtain ⟨q', hq', hqx⟩ := List.mem_map.mp hx
      rw [← hqx]
      exact (imem q' hq').2
    obtain ⟨gf, hgf, hsent⟩ := fast_flush_spec g hmode hplan ihlen
      (by rw [imnx, imxx]; omega) (by rw [imny, imxy]; omega)
      (by rw [imxx, ihs]; exact hbx) (by rw [imxy, ihs]; exact hby)
    refine ⟨⟨gf, hgf, ?_⟩, ?_, ?_⟩
    · rw [hsent, imnx, imxx, imny, imxy, ihs]
    · obtain ⟨gfull, h1, h2⟩ := flush_spec g hmode hplan
      exact ⟨gfull, h1, by rw [h2, ihs]⟩
    · intro k j hk hj
      rw [bandSlice_getD _ _ _ _ _ _ (by omega) (by omega)]
      have hidx : (boxMin (t.map Prod.snd) / 8 + k) * sz.dims.1 +
          (boxMin (t.map Prod.fst) + j) <
          g.properties.display_size.dims.1 *
            (g.properties.display_size.dims.2 / 8) := by
        rw [ihs]
        cases sz <;> simp only [DisplaySize.dims] at hbx hby ⊢ <;> omega
      rw [flushPayload_getD g _ hidx]

/-- Claim C1 (counterexample): on a 128x64 panel at Rotate90, the reachable
state with the single in-range pixel (0, 100) — whose framebuffer byte 100
is non-zero — makes `fast_flush` transmit the draw-area commands and then
not a single data command (the dirty bounds are logical coordinates, but the
band selection reads the physical page layout, and the wrapped `u8` page
count skips past the end of the chunk list).  So the transmitted bytes do
not cover the touched coordinate, and the device-visible result differs
from what `flush` (which transmits the whole active slice) would produce. -/
theorem fast_flush_rot90_counterexample :
    ReachableT .Display128x64 .Rotate90 gRot90Cex [(0, 100)] ∧
    gRot90Cex.properties.addr_mode ≠ .Page ∧
    gRot90Cex.properties.iface.plan = [] ∧
    gRot90Cex.buffer.getD 100 0 = 1 ∧
    (gRot90Cex.fast_flush).1 = Res.ok () ∧
    (gRot90Cex.fast_flush).2.properties.iface.sent =
      [.ColumnAddress 0 0, .PageAddress 12 7] := by
  refine ⟨?_, by decide, rfl, by decide, by decide, by decide⟩
  exact ReachableT.step _ [] 0 100 1
    (ReachableT.base props64R90 rfl rfl) (by decide) (by decide)

/-- Claim C1 (witness): the amended theorem at the concrete reachable state
with the single touched pixel (5, 9) on a 128x64 panel at Rotate0. -/
theorem fast_flush_refines_flush_rot0_180_witness :
    (∃ gf, (gm64.set_pixel 5 9 1).fast_flush = (.ok (), gf) ∧
      gf.properties.iface.sent =
        [Cmd.ColumnAddress 5 5, Cmd.PageAddress 1 1,
         Cmd.Data (bandSlice (gm64.set_pixel 5 9 1).buffer 128 1 5 1)]) ∧
    (∃ gfull, (gm64.set_pixel 5 9 1).flush = (.ok (), gfull) ∧
      gfull.properties.iface.sent =
        [Cmd.ColumnAddress 0 127, Cmd.PageAddress 0 7,
         Cmd.Data (flushPayload (gm64.set_pixel 5 9 1))]) ∧
    (∀ k j, k ≤ 0 → j ≤ 0 →
      (bandSlice (gm64.set_pixel 5 9 1).buffer 128 (1 + k) 5 1).getD j 0 =
        (flushPayload (gm64.set_pixel 5 9 1)).getD
          ((1 + k) * 128 + (5 + j)) 0) :=
  (fast_flush_refines_flush_rot0_180 .Display128x64 .Rotate0
    (gm64.set_pixel 5 9 1) [(5, 9)]
    (ReachableT.step _ [] 5 9 1 (ReachableT.base props64H rfl rfl)
      (by decide) (by decide))
    (Or.inl rfl) (by decide) rfl).2 (by simp)
